import Mathlib

/-!
Verification of the AQData_Mining repository.

The repository has three scripts:
* AQDataFetcher.py — probes a paginated air-quality API for its schema and
  latest timestamp, computes a starting offset from the latest record's hour,
  and walks the collection page by page, writing records to a CSV file;
* clean_data.py — coerces a fixed list of monitored columns to numeric and
  drops every row with an unparsable value in one of them;
* bin_data.py — partitions each pollutant/windspeed column's observed range
  into three equal-width bins via a 4-point linspace and emits the bin
  boundaries as a side table.

Each script is embedded below as executable Lean definitions.  External
effects are made explicit: the API is an oracle (a probe response plus a list
of page responses consumed in order), and the run's observable effects
(directory creation, file creation, data rows written, page requests issued)
are returned as data.
-/

/-! ### Shared character/string helpers

The Python scripts manipulate strings (timestamps, CSV cell values).  These
helpers work on explicit character lists so that all definitions reduce in
the kernel. -/

/-- Split a character list at every occurrence of the separator
(the analogue of Python's `str.split(sep)` for a one-character separator). -/
def splitOnChar (sep : Char) : List Char → List (List Char)
  | [] => [[]]
  | c :: cs =>
    let r := splitOnChar sep cs
    if c = sep then [] :: r
    else
      match r with
      | [] => [[c]]
      | g :: gs => (c :: g) :: gs

/-- Numeric value of a list of decimal digit characters. -/
def digitsToNat (cs : List Char) : ℕ :=
  cs.foldl (fun a c => 10 * a + (c.toNat - 48)) 0

/-- Render a natural number zero-padded to at least `k` digits. -/
def padZeros (k : ℕ) (n : ℕ) : String :=
  let s := toString n
  if s.length < k then String.mk (List.replicate (k - s.length) '0') ++ s else s

namespace AQDataFetcher

/-! ### Embedding of AQDataFetcher.py -/

/-- `NUM_STATIONS = 87`: number of monitoring stations (class constant). -/
def NUM_STATIONS : ℕ := 87

/-- `API_LIMIT = 1000`: maximum records per API request (class constant). -/
def API_LIMIT : ℕ := 1000

/-- A JSON record: a mapping from field names to string values, as consumed
by the scripts (`record.get(...)`). -/
abbrev Record := List (String × String)

/-- `record.get(key, '')`: the value at `key`, or the empty string when the
key is absent (the code also treats an empty-string timestamp as absent). -/
def recordGet (rec : Record) (key : String) : String :=
  match rec.find? (fun kv => kv.1 == key) with
  | some kv => kv.2
  | none => ""

/-- `{header: record.get(header, '') for header in headers}`: re-key a record
to the fixed column list, missing fields defaulting to the empty string. -/
def processRecord (headers : List String) (rec : Record) : Record :=
  headers.map (fun h => (h, recordGet rec h))

/-- A parsed `datetime` value, as produced by
`datetime.strptime(s, "%Y-%m-%d %H:%M")`. -/
structure DateTime where
  year : ℕ
  month : ℕ
  day : ℕ
  hour : ℕ
  minute : ℕ
deriving Repr, DecidableEq

/-- A calendar date (`datetime.date`). -/
structure Date where
  year : ℕ
  month : ℕ
  day : ℕ
deriving Repr, DecidableEq

/-- `datetime.date()` on a parsed timestamp. -/
def DateTime.date (dt : DateTime) : Date := ⟨dt.year, dt.month, dt.day⟩

/-- Gregorian leap-year test (as used by Python's `datetime`). -/
def isLeapYear (y : ℕ) : Bool :=
  y % 4 = 0 && (y % 100 ≠ 0 || y % 400 = 0)

/-- Number of days in a month of the Gregorian calendar. -/
def daysInMonth (y m : ℕ) : ℕ :=
  if m = 2 then (if isLeapYear y then 29 else 28)
  else if m = 4 ∨ m = 6 ∨ m = 9 ∨ m = 11 then 30 else 31

/-- A digit field of a timestamp: all digits, nonempty, at most `maxLen`
characters (as matched by one `strptime` directive). -/
def parseField (cs : List Char) (maxLen : ℕ) : Option ℕ :=
  if !cs.isEmpty && cs.length ≤ maxLen && cs.all Char.isDigit then
    some (digitsToNat cs)
  else none

/-- `datetime.strptime(s, "%Y-%m-%d %H:%M")`: parse a timestamp string,
validating the calendar ranges (month 1–12, day within the month, hour 0–23,
minute 0–59); any mismatch yields `none` (the `ValueError` branch). -/
def parseDateTime (s : String) : Option DateTime :=
  match splitOnChar ' ' s.data with
  | [ds, ts] =>
    match splitOnChar '-' ds, splitOnChar ':' ts with
    | [ys, ms, dds], [hs, mis] => do
      let y ← parseField ys 4
      let m ← parseField ms 2
      let d ← parseField dds 2
      let h ← parseField hs 2
      let mi ← parseField mis 2
      if 1 ≤ y ∧ 1 ≤ m ∧ m ≤ 12 ∧ 1 ≤ d ∧ d ≤ daysInMonth y m ∧ h ≤ 23 ∧ mi ≤ 59 then
        some ⟨y, m, d, h, mi⟩
      else none
    | _, _ => none
  | _ => none

/-- The day before a date (`date - timedelta(days=1)`). -/
def prevDate (d : Date) : Date :=
  if d.day > 1 then ⟨d.year, d.month, d.day - 1⟩
  else if d.month > 1 then ⟨d.year, d.month - 1, daysInMonth d.year (d.month - 1)⟩
  else ⟨d.year - 1, 12, 31⟩

/-- `date - timedelta(days=n)`. -/
def subDays (d : Date) (n : ℕ) : Date := prevDate^[n] d

/-- Two-digit zero-padded component (`%m`, `%d` in `strftime`). -/
def pad2 (n : ℕ) : String := padZeros 2 n

/-- Four-digit zero-padded year (`%Y` in `strftime`). -/
def pad4 (n : ℕ) : String := padZeros 4 n

/-- `date.strftime('%Y%m%d')`. -/
def formatDate (d : Date) : String := pad4 d.year ++ pad2 d.month ++ pad2 d.day

/-- `end_date = (latest_dt - timedelta(days=1)).date()` (fetch_and_save). -/
def endDateOf (latest : DateTime) : Date := prevDate latest.date

/-- `start_date = end_date - timedelta(days=days_to_fetch - 1)`
(fetch_and_save). -/
def startDateOf (latest : DateTime) (days : ℕ) : Date :=
  subDays (endDateOf latest) (days - 1)

/-- `output_filename = f"{start_date:%Y%m%d}_{end_date:%Y%m%d}.csv"`. -/
def outputFilename (latest : DateTime) (days : ℕ) : String :=
  formatDate (startDateOf latest days) ++ "_" ++ formatDate (endDateOf latest) ++ ".csv"

/-- `_calculate_start_offset`: `hours_passed_today = latest_dt.hour + 1`;
`offset = hours_passed_today * NUM_STATIONS`. -/
def calculateStartOffset (latest : DateTime) : ℕ :=
  (latest.hour + 1) * NUM_STATIONS

/-- The probe response body, when `_make_api_request` succeeded: a `records`
array and a `fields` array (each field a JSON object that should carry an
`id`).  `none` at the call site models a failed or malformed probe request. -/
structure ProbeData where
  records : List Record
  fields : List Record
deriving Repr, DecidableEq

/-- `field['id']`: `none` models the `KeyError` caught by the probe. -/
def fieldId (f : Record) : Option String :=
  match f.find? (fun kv => kv.1 == "id") with
  | some kv => some kv.2
  | none => none

/-- `_get_headers_and_latest_time`: on a response with nonempty `records` and
`fields`, extract the field ids as headers and parse the first record's
`datacreationdate`; any failure (missing probe data, empty arrays, a field
without `id`, a missing/empty timestamp, an unparsable timestamp) yields
`none` — the `(None, None)` return of the source. -/
def getHeadersAndLatestTime (data : Option ProbeData) :
    Option (List String × DateTime) :=
  match data with
  | none => none
  | some pd =>
    if pd.records ≠ [] ∧ pd.fields ≠ [] then
      match pd.fields.mapM fieldId with
      | none => none
      | some headers =>
        match pd.records with
        | [] => none
        | rec0 :: _ =>
          let s := recordGet rec0 "datacreationdate"
          if s = "" then none
          else
            match parseDateTime s with
            | none => none
            | some dt => some (headers, dt)
    else none

/-- The timestamp part of the probe fails on a given probe body: the first
record's `datacreationdate` is absent/empty, or does not parse as
`YYYY-MM-DD HH:MM` (vacuously true when there is no record at all). -/
def probeTimestampBad (pd : ProbeData) : Bool :=
  match pd.records with
  | [] => true
  | r :: _ =>
    recordGet r "datacreationdate" == "" ||
      (parseDateTime (recordGet r "datacreationdate")).isNone

/-- One page response of the fetch loop: `fail` models `_make_api_request`
returning `None`; `ok records` models a JSON body whose `records` entry is
the given list (an empty or missing `records` array is `ok []`, which the
loop treats as end of data and breaks on). -/
inductive PageResult where
  | ok (records : List Record)
  | fail
deriving Repr, DecidableEq

/-- The mutable loop state of `fetch_and_save`: `records_fetched_count`,
`current_offset`, and the data rows written to the CSV so far. -/
structure LoopState where
  fetched : ℕ
  offset : ℕ
  rows : List Record
deriving Repr, DecidableEq

/-- `limit_for_this_request = min(API_LIMIT, total - fetched)`
(`remaining_records = total_records_to_fetch - records_fetched_count`). -/
def limitFor (total fetched : ℕ) : ℕ := min API_LIMIT (total - fetched)

/-- One page request as sent to the API (`params`), together with the value
of `records_fetched_count` at the moment the request was issued. -/
structure PageRequest where
  offset : ℕ
  limit : ℕ
  fetchedBefore : ℕ
deriving Repr, DecidableEq

/-- The request issued from a given loop state. -/
def mkRequest (total : ℕ) (s : LoopState) : PageRequest :=
  ⟨s.offset, limitFor total s.fetched, s.fetched⟩

/-- Success branch of the loop body: append the re-keyed batch, and advance
both `records_fetched_count` and `current_offset` by the number of records
actually received (`num_in_batch`). -/
def writeBatch (headers : List String) (s : LoopState) (recs : List Record) :
    LoopState :=
  { fetched := s.fetched + recs.length
    offset := s.offset + recs.length
    rows := s.rows ++ recs.map (processRecord headers) }

/-- Failure branch of the loop body: `current_offset += limit_for_this_request`
with the fetched count unchanged. -/
def skipFailed (total : ℕ) (s : LoopState) : LoopState :=
  { s with offset := s.offset + limitFor total s.fetched }

/-- The `while records_fetched_count < total_records_to_fetch` loop of
`fetch_and_save`, consuming page responses in order.  The result is the final
loop state plus the trace of page requests issued; `none` means the supplied
response list was exhausted while the loop still wanted another page (so the
run is not yet decided by this finite oracle). -/
def runLoop (headers : List String) (total : ℕ) :
    List PageResult → LoopState → Option (LoopState × List PageRequest)
  | [], s =>
    if s.fetched < total then
      if limitFor total s.fetched = 0 then some (s, [])
      else none
    else some (s, [])
  | r :: rest, s =>
    if s.fetched < total then
      if limitFor total s.fetched = 0 then some (s, [])
      else
        match r with
        | PageResult.ok [] => some (s, [mkRequest total s])
        | PageResult.ok recs =>
          (runLoop headers total rest (writeBatch headers s recs)).map
            (fun p => (p.1, mkRequest total s :: p.2))
        | PageResult.fail =>
          (runLoop headers total rest (skipFailed total s)).map
            (fun p => (p.1, mkRequest total s :: p.2))
    else some (s, [])

/-- The observable effects of one `fetch_and_save` run: whether the probe
request was issued, whether `os.makedirs` ran, the created CSV file (if any),
the data rows written to it, and the page requests issued. -/
structure RunResult where
  probeRequested : Bool
  dirCreated : Bool
  file : Option String
  rows : List Record
  pageRequests : List PageRequest
deriving Repr, DecidableEq

/-- `fetch_and_save(days_to_fetch)`: reject non-positive `days_to_fetch`
before doing anything; abort after a failed probe; otherwise compute the
start offset and target total, create the directory and file, and run the
page loop.  `probe` is the probe response and `resps` the page responses the
API would give, in order. -/
def fetch_and_save (days_to_fetch : ℤ) (probe : Option ProbeData)
    (resps : List PageResult) : Option RunResult :=
  if days_to_fetch ≤ 0 then some ⟨false, false, none, [], []⟩
  else
    match getHeadersAndLatestTime probe with
    | none => some ⟨true, false, none, [], []⟩
    | some (headers, latest) =>
      let d := days_to_fetch.toNat
      let total := NUM_STATIONS * 24 * d
      match runLoop headers total resps ⟨0, calculateStartOffset latest, []⟩ with
      | none => none
      | some (final, reqs) =>
        some ⟨true, true, some (outputFilename latest d), final.rows, reqs⟩

/-- The per-page bound of a well-behaved API, tracked along the fetched-count
evolution of the run: each successful page carries at most the number of
records the loop requests at that point. -/
def boundedResponses (total : ℕ) : List PageResult → ℕ → Bool
  | [], _ => true
  | PageResult.fail :: rest, f => boundedResponses total rest f
  | PageResult.ok recs :: rest, f =>
    decide (recs.length ≤ min API_LIMIT (total - f)) &&
      boundedResponses total rest (f + recs.length)

end AQDataFetcher

namespace CleanData

/-! ### Embedding of clean_data.py

A CSV table is a list of rows, each row a list of column/value pairs of
strings.  The script is `pd.read_csv` → numeric coercion of the monitored
columns (`pd.to_numeric(..., errors='coerce')`) → `dropna(subset=...)` →
`pd.to_csv`.  The read/write cycle is modelled by pandas' column-dtype
semantics: `read_csv` classifies each column as int64 (every cell an integer
literal), float64 (every cell a numeric literal or a NaN form) or object
(anything else), and `to_csv` re-serializes every cell of a numeric column
from its parsed value (integers plain in an int64 column, with a trailing
`.0` when integral in a float64 column), while object-column cells keep
their text.  Numeric values are exact decimals `m * 10^e`; the model
idealizes away binary float64 rounding, negative zero and the
scientific-notation threshold of very large/small floats, and models the
NaN forms recognized by the parsers as the empty cell and `nan`. -/

/-- A CSV row: column names paired with cell values. -/
abbrev Row := List (String × String)

/-- `columns_to_check`: the monitored columns coerced to numeric. -/
def columns_to_check : List String :=
  ["so2", "co", "o3", "o3_8hr", "pm10", "pm2.5", "no2", "nox", "no", "windspeed"]

/-- Whitespace tolerated around numeric literals by the pandas parsers. -/
def isSpaceChar (c : Char) : Bool := c = ' ' || c = '\t'

/-- Strip surrounding whitespace from a cell. -/
def stripChars (cs : List Char) : List Char :=
  ((cs.dropWhile isSpaceChar).reverse.dropWhile isSpaceChar).reverse

/-- ASCII lower-casing (for the case-insensitive `inf`/`nan` forms). -/
def lowerChar (c : Char) : Char :=
  if 'A' ≤ c ∧ c ≤ 'Z' then Char.ofNat (c.toNat + 32) else c

/-- A cell normalized for numeric parsing: stripped and lower-cased. -/
def normInput (s : String) : List Char := (stripChars s.data).map lowerChar

/-- Split an optional leading sign off a literal; `true` means negative. -/
def splitSign : List Char → Bool × List Char
  | '-' :: cs => (true, cs)
  | '+' :: cs => (false, cs)
  | cs => (false, cs)

/-- A non-NaN float64 value: an exact decimal `m * 10^e`, or an infinity. -/
inductive PdVal where
  | finite (m e : ℤ)
  | pinf
  | ninf
deriving Repr, DecidableEq

/-- Remove factors of ten from the mantissa while the exponent is negative
(fuel-bounded); step of the canonical form. -/
def stripZeros : ℕ → ℤ → ℤ → ℤ × ℤ
  | 0, m, e => (m, e)
  | fuel + 1, m, e =>
    if e < 0 ∧ m % 10 = 0 then stripZeros fuel (m / 10) (e + 1) else (m, e)

/-- Canonical mantissa/exponent pair of a decimal `m * 10^e`: integers get
exponent 0, fractional values a mantissa not divisible by ten, so equal
numeric values have equal canonical pairs (as the stored float64 does not
remember how the literal was written). -/
def canonFE (m e : ℤ) : ℤ × ℤ :=
  if m = 0 then (0, 0)
  else if 0 ≤ e then (m * 10 ^ e.toNat, 0)
  else stripZeros e.natAbs m e

/-- Build the canonical finite value of a signed decimal. -/
def mkFinite (neg : Bool) (m e : ℤ) : PdVal :=
  let c := canonFE (if neg then -m else m) e
  PdVal.finite c.1 c.2

/-- Parse `digits[.digits]` into an exact decimal (mantissa, exponent). -/
def parseMantissa (cs : List Char) : Option (ℤ × ℤ) :=
  match splitOnChar '.' cs with
  | [is] =>
    if !is.isEmpty && is.all Char.isDigit then some ((digitsToNat is : ℤ), 0)
    else none
  | [is, fs] =>
    if is.isEmpty && fs.isEmpty then none
    else if is.all Char.isDigit && fs.all Char.isDigit then
      some (((digitsToNat is * 10 ^ fs.length + digitsToNat fs : ℕ) : ℤ),
        -(fs.length : ℤ))
    else none
  | _ => none

/-- Parse an exponent part `[+|-]digits`. -/
def parseExp (cs : List Char) : Option ℤ :=
  let p := splitSign cs
  if !p.2.isEmpty && p.2.all Char.isDigit then
    some (if p.1 then -(digitsToNat p.2 : ℤ) else (digitsToNat p.2 : ℤ))
  else none

/-- The NaN cell forms recognized by the parsers: empty and `nan`
(case-insensitive, surrounding whitespace allowed). -/
def isNanForm (s : String) : Bool :=
  decide (normInput s = []) || decide (normInput s = ['n', 'a', 'n'])

/-- `pd.to_numeric(s, errors='coerce')` on one cell: `none` is the NaN it
places on a NaN form or an unparsable value; otherwise the parsed value —
an optional sign, then `digits[.digits][(e|E)[+|-]digits]` or an infinity
(`inf`/`infinity`, case-insensitive), with surrounding whitespace. -/
def toNumericVal (s : String) : Option PdVal :=
  if isNanForm s then none
  else
    let p := splitSign (normInput s)
    if p.2 = ['i', 'n', 'f'] || p.2 = ['i', 'n', 'f', 'i', 'n', 'i', 't', 'y'] then
      some (if p.1 then PdVal.ninf else PdVal.pinf)
    else
      match splitOnChar 'e' p.2 with
      | [mant] => (parseMantissa mant).map (fun q => mkFinite p.1 q.1 q.2)
      | [mant, ex] =>
        match parseMantissa mant, parseExp ex with
        | some q, some e2 => some (mkFinite p.1 q.1 (q.2 + e2))
        | _, _ => none
      | _ => none

/-- An integer literal as `read_csv` accepts for an int64 column:
an optional sign and digits only. -/
def parseIntLit (s : String) : Option ℤ :=
  let p := splitSign (stripChars s.data)
  if !p.2.isEmpty && p.2.all Char.isDigit then
    some (if p.1 then -(digitsToNat p.2 : ℤ) else (digitsToNat p.2 : ℤ))
  else none

/-- A column dtype as inferred by `read_csv`. -/
inductive Dtype where
  | int
  | float
  | obj
deriving Repr, DecidableEq

/-- The value of a row at a column (CSV tables are rectangular; a missing
key reads as the empty cell, a NaN form). -/
def rowGet (row : Row) (c : String) : String :=
  match row.find? (fun kv => kv.1 == c) with
  | some kv => kv.2
  | none => ""

/-- One column of the table, as read. -/
def colCells (t : List Row) (c : String) : List String :=
  t.map (fun r => rowGet r c)

/-- `read_csv` dtype inference for one column: int64 when every cell is an
integer literal, float64 when every cell is numeric or a NaN form, object
otherwise. -/
def colDtype (cells : List String) : Dtype :=
  if cells.all (fun s => (parseIntLit s).isSome) then Dtype.int
  else if cells.all (fun s => isNanForm s || (toNumericVal s).isSome) then Dtype.float
  else Dtype.obj

/-- The dtype a column has when written back: `to_numeric` turns a monitored
object column into float64 (its coercion produced at least one NaN there);
all other dtypes are unchanged (`dropna` never changes a dtype). -/
def outDtypeIn (t : List Row) (c : String) : Dtype :=
  if columns_to_check.contains c && decide (colDtype (colCells t c) = Dtype.obj) then
    Dtype.float
  else colDtype (colCells t c)

/-- A coerced cell: a numeric value, the `NaN` placed by a failed coercion,
or an untouched non-monitored cell. -/
inductive CCell where
  | val (v : PdVal)
  | nan
  | raw (s : String)
deriving Repr, DecidableEq

/-- `pd.to_numeric(v, errors='coerce')` on one monitored cell. -/
def toNumericCell (v : String) : CCell :=
  match toNumericVal v with
  | some w => CCell.val w
  | none => CCell.nan

/-- `df[columns_to_check] = df[columns_to_check].apply(pd.to_numeric,
errors='coerce')`: coerce exactly the monitored cells of a row. -/
def coerceChecked (row : Row) : List (String × CCell) :=
  row.map (fun kv =>
    (kv.1, if columns_to_check.contains kv.1 then toNumericCell kv.2 else CCell.raw kv.2))

/-- The `dropna(subset=columns_to_check)` test: does the row hold a `NaN` in
a monitored column? -/
def rowHasNaN (crow : List (String × CCell)) : Bool :=
  crow.any (fun kv => columns_to_check.contains kv.1 && decide (kv.2 = CCell.nan))

/-- Serialize a nonnegative canonical decimal in a float64 column:
integers get a trailing `.0`, fractions their decimal digits. -/
def renderFiniteAbs (n : ℕ) (e : ℤ) : String :=
  if e = 0 then toString n ++ ".0"
  else toString (n / 10 ^ e.natAbs) ++ "." ++ padZeros e.natAbs (n % 10 ^ e.natAbs)

/-- Serialize a canonical decimal in a float64 column. -/
def renderFinite (m e : ℤ) : String :=
  if m < 0 then "-" ++ renderFiniteAbs m.natAbs e else renderFiniteAbs m.natAbs e

/-- `to_csv` text of a float64 value. -/
def renderFloatVal : PdVal → String
  | PdVal.finite m e => renderFinite m e
  | PdVal.pinf => "inf"
  | PdVal.ninf => "-inf"

/-- `to_csv` text of an int64 value (canonical integers have exponent 0). -/
def renderIntVal : PdVal → String
  | PdVal.finite m e => if e = 0 then toString m else renderFinite m e
  | PdVal.pinf => "inf"
  | PdVal.ninf => "-inf"

/-- `to_csv` on one cell, directed by its column's dtype: object columns
keep the cell text; numeric columns re-serialize every cell — raw or
coerced — from its parsed value (NaN writes as empty). -/
def renderCCell (d : Dtype) (cell : CCell) : String :=
  match d, cell with
  | Dtype.obj, CCell.raw s => s
  | Dtype.obj, CCell.val v => renderFloatVal v
  | Dtype.obj, CCell.nan => ""
  | Dtype.int, CCell.raw s =>
    (match toNumericVal s with
     | some v => renderIntVal v
     | none => "")
  | Dtype.int, CCell.val v => renderIntVal v
  | Dtype.int, CCell.nan => ""
  | Dtype.float, CCell.raw s =>
    (match toNumericVal s with
     | some v => renderFloatVal v
     | none => "")
  | Dtype.float, CCell.val v => renderFloatVal v
  | Dtype.float, CCell.nan => ""

/-- `to_csv` on one surviving row, with column dtypes taken from the table
as it was read. -/
def renderBack (t : List Row) (crow : List (String × CCell)) : Row :=
  crow.map (fun kv => (kv.1, renderCCell (outDtypeIn t kv.1) kv.2))

/-- `process_data` of clean_data.py: coerce the monitored columns, drop the
rows with a `NaN` among them, serialize the rest back by column dtype. -/
def process_data (t : List Row) : List Row :=
  ((t.map coerceChecked).filter (fun r => !rowHasNaN r)).map (renderBack t)

/-- Does every monitored cell of the row coerce to a non-NaN value?  (The
complement of the `dropna` condition, at the level of the input row.) -/
def rowKept (row : Row) : Bool :=
  row.all (fun kv => !(columns_to_check.contains kv.1) || (toNumericVal kv.2).isSome)

/-- The whole pipeline on one cell of a surviving row: coercion when the
column is monitored, then dtype-directed serialization. -/
def cleanCellIn (t : List Row) (c v : String) : String :=
  renderCCell (outDtypeIn t c)
    (if columns_to_check.contains c then toNumericCell v else CCell.raw v)

end CleanData

namespace BinData

/-! ### Embedding of bin_data.py

A binned column is a list of rational values.  `np.linspace(min, max, 4)`
and `pd.cut(..., include_lowest=True)` are modelled exactly; the side table
of bin boundaries (`erange_records`) is built as in the source. -/

/-- The pollutant columns binned with labels 低/中/高. -/
def pollutants : List String :=
  ["so2", "co", "o3", "o3_8hr", "pm10", "pm2.5", "no2", "nox", "no"]

/-- `pollutant_labels = ['低', '中', '高']`. -/
def pollutantLabels : List String := ["低", "中", "高"]

/-- `windspeed_labels = ['弱', '中', '強']`. -/
def windspeedLabels : List String := ["弱", "中", "強"]

/-- `np.linspace(a, b, num)`: `num` evenly spaced points from `a` to `b`
inclusive. -/
def linspace (a b : ℚ) (num : ℕ) : List ℚ :=
  (List.range num).map (fun i => a + (b - a) * i / (num - 1))

/-- `df[col].min()` (0 on an empty column, which the script never feeds). -/
def colMin : List ℚ → ℚ
  | [] => 0
  | x :: xs => xs.foldl min x

/-- `df[col].max()` (0 on an empty column). -/
def colMax : List ℚ → ℚ
  | [] => 0
  | x :: xs => xs.foldl max x

/-- `pd.cut(v, bins, labels, include_lowest=True)` for the 4-edge/3-label
case: right-closed intervals, the first one also left-closed; a value outside
every interval gets no label (`NaN`). -/
def cut3 (bins : List ℚ) (labels : List String) (v : ℚ) : Option String :=
  match bins, labels with
  | [b0, b1, b2, b3], [l0, l1, l2] =>
    if b0 ≤ v ∧ v ≤ b1 then some l0
    else if b1 < v ∧ v ≤ b2 then some l1
    else if b2 < v ∧ v ≤ b3 then some l2
    else none
  | _, _ => none

/-- One row of the emitted side table (`erange_records`). -/
structure RangeRec where
  var : String
  group : String
  min_value : ℚ
  max_value : ℚ
deriving Repr, DecidableEq

/-- `for i in range(3): erange_records.append({...})`: the three boundary
rows emitted for one column. -/
def binRanges (col : String) (labels : List String) (bins : List ℚ) :
    List RangeRec :=
  (List.range 3).map (fun i => ⟨col, labels.getD i "", bins.getD i 0, bins.getD (i + 1) 0⟩)

/-- The binning pass on one column: the per-row labels
(`df[f'{col}_level']`) and the emitted boundary rows. -/
def binColumn (col : String) (labels : List String) (values : List ℚ) :
    List (Option String) × List RangeRec :=
  let bins := linspace (colMin values) (colMax values) 4
  (values.map (cut3 bins labels), binRanges col labels bins)

end BinData

/-! ## Helper lemmas about the fetch loop -/

namespace AQDataFetcher

/-- Under the loop guard, the requested limit is at least 1 (so the dead
`limit_for_this_request <= 0` break is never taken). -/
theorem limitFor_pos (total fetched : ℕ) (h : fetched < total) :
    0 < limitFor total fetched :=
  lt_min_iff.mpr ⟨by norm_num [API_LIMIT], by omega⟩

/-- Unfolding: the loop with no responses left. -/
theorem runLoop_nil (hdrs : List String) (total : ℕ) (s : LoopState) :
    runLoop hdrs total [] s =
      if s.fetched < total then
        (if limitFor total s.fetched = 0 then some (s, []) else none)
      else some (s, []) := rfl

/-- Unfolding: the loop exits at once when the target is already reached. -/
theorem runLoop_cons_exit (hdrs : List String) (total : ℕ) (r : PageResult)
    (rest : List PageResult) (s : LoopState) (h : ¬ s.fetched < total) :
    runLoop hdrs total (r :: rest) s = some (s, []) := by
  simp [runLoop, h]

/-- Unfolding: a successful page with an empty `records` array breaks the
loop, leaving the state untouched. -/
theorem runLoop_cons_ok_nil (hdrs : List String) (total : ℕ)
    (rest : List PageResult) (s : LoopState) (hg : s.fetched < total) :
    runLoop hdrs total (PageResult.ok [] :: rest) s =
      some (s, [mkRequest total s]) := by
  simp [runLoop, hg, (limitFor_pos total s.fetched hg).ne']

/-- Unfolding: a successful page with at least one record appends the batch
and continues. -/
theorem runLoop_cons_ok (hdrs : List String) (total : ℕ) (rec0 : Record)
    (recs : List Record) (rest : List PageResult) (s : LoopState)
    (hg : s.fetched < total) :
    runLoop hdrs total (PageResult.ok (rec0 :: recs) :: rest) s =
      (runLoop hdrs total rest (writeBatch hdrs s (rec0 :: recs))).map
        (fun p => (p.1, mkRequest total s :: p.2)) := by
  simp [runLoop, hg, (limitFor_pos total s.fetched hg).ne']

/-- Unfolding: a failed page advances the offset by the requested limit and
continues. -/
theorem runLoop_cons_fail (hdrs : List String) (total : ℕ)
    (rest : List PageResult) (s : LoopState) (hg : s.fetched < total) :
    runLoop hdrs total (PageResult.fail :: rest) s =
      (runLoop hdrs total rest (skipFailed total s)).map
        (fun p => (p.1, mkRequest total s :: p.2)) := by
  simp [runLoop, hg, (limitFor_pos total s.fetched hg).ne']

/-- The offset never decreases across a finished run of the loop. -/
theorem runLoop_offset_mono (hdrs : List String) (total : ℕ) :
    ∀ (resps : List PageResult) (s fin : LoopState) (reqs : List PageRequest),
      runLoop hdrs total resps s = some (fin, reqs) → s.offset ≤ fin.offset := by
  intro resps
  induction resps with
  | nil =>
    intro s fin reqs h
    rw [runLoop_nil] at h
    split at h
    · split at h
      · obtain ⟨rfl, -⟩ := Prod.mk.injEq .. ▸ Option.some.inj h
        exact le_rfl
      · exact absurd h (by simp)
    · obtain ⟨rfl, -⟩ := Prod.mk.injEq .. ▸ Option.some.inj h
      exact le_rfl
  | cons r rest ih =>
    intro s fin reqs h
    by_cases hg : s.fetched < total
    · cases r with
      | ok recs =>
        cases recs with
        | nil =>
          rw [runLoop_cons_ok_nil hdrs total rest s hg] at h
          obtain ⟨rfl, -⟩ := Prod.mk.injEq .. ▸ Option.some.inj h
          exact le_rfl
        | cons rec0 recs =>
          rw [runLoop_cons_ok hdrs total rec0 recs rest s hg] at h
          rw [Option.map_eq_some'] at h
          obtain ⟨p, hp, heq⟩ := h
          obtain ⟨rfl, -⟩ := Prod.mk.injEq .. ▸ heq
          calc s.offset ≤ (writeBatch hdrs s (rec0 :: recs)).offset := by
                simp [writeBatch]
            _ ≤ p.1.offset := ih _ p.1 p.2 (by rw [hp])
      | fail =>
        rw [runLoop_cons_fail hdrs total rest s hg] at h
        rw [Option.map_eq_some'] at h
        obtain ⟨p, hp, heq⟩ := h
        obtain ⟨rfl, -⟩ := Prod.mk.injEq .. ▸ heq
        calc s.offset ≤ (skipFailed total s).offset := by simp [skipFailed]
          _ ≤ p.1.offset := ih _ p.1 p.2 (by rw [hp])
    · rw [runLoop_cons_exit hdrs total r rest s hg] at h
      obtain ⟨rfl, -⟩ := Prod.mk.injEq .. ▸ Option.some.inj h
      exact le_rfl

/-- The first request of a finished run is issued from the initial state. -/
theorem runLoop_first_request (hdrs : List String) (total : ℕ)
    (resps : List PageResult) (s fin : LoopState) (q : PageRequest)
    (qs : List PageRequest)
    (h : runLoop hdrs total resps s = some (fin, q :: qs)) :
    q = mkRequest total s := by
  cases resps with
  | nil =>
    rw [runLoop_nil] at h
    split at h
    · split at h
      · obtain ⟨-, hq⟩ := Prod.mk.injEq .. ▸ Option.some.inj h
        exact absurd hq (by simp)
      · exact absurd h (by simp)
    · obtain ⟨-, hq⟩ := Prod.mk.injEq .. ▸ Option.some.inj h
      exact absurd hq (by simp)
  | cons r rest =>
    by_cases hg : s.fetched < total
    · cases r with
      | ok recs =>
        cases recs with
        | nil =>
          rw [runLoop_cons_ok_nil hdrs total rest s hg] at h
          obtain ⟨-, hq⟩ := Prod.mk.injEq .. ▸ Option.some.inj h
          exact (List.cons.injEq .. ▸ hq).1.symm
        | cons rec0 recs =>
          rw [runLoop_cons_ok hdrs total rec0 recs rest s hg,
            Option.map_eq_some'] at h
          obtain ⟨p, -, heq⟩ := h
          obtain ⟨-, hq⟩ := Prod.mk.injEq .. ▸ heq
          exact (List.cons.injEq .. ▸ hq).1.symm
      | fail =>
        rw [runLoop_cons_fail hdrs total rest s hg, Option.map_eq_some'] at h
        obtain ⟨p, -, heq⟩ := h
        obtain ⟨-, hq⟩ := Prod.mk.injEq .. ▸ heq
        exact (List.cons.injEq .. ▸ hq).1.symm
    · rw [runLoop_cons_exit hdrs total r rest s hg] at h
      obtain ⟨-, hq⟩ := Prod.mk.injEq .. ▸ Option.some.inj h
      exact absurd hq (by simp)

/-- When every request fails, no amount of responses finishes the loop: the
fetched count never moves, so the guard `fetched < total` stays true. -/
theorem runLoop_replicate_fail_none (hdrs : List String) (total : ℕ) :
    ∀ (n : ℕ) (s : LoopState), s.fetched < total →
      runLoop hdrs total (List.replicate n PageResult.fail) s = none := by
  intro n
  induction n with
  | zero =>
    intro s hg
    rw [List.replicate_zero, runLoop_nil]
    simp [hg, (limitFor_pos total s.fetched hg).ne']
  | succ n ih =>
    intro s hg
    rw [List.replicate_succ, runLoop_cons_fail hdrs total _ s hg]
    rw [ih (skipFailed total s) hg]
    rfl

/-- When every response is a successful page, the loop finishes as soon as
the response list is long enough: each nonempty page advances the fetched
count by at least one, and an empty page breaks. -/
theorem runLoop_all_ok_some (hdrs : List String) (total : ℕ) :
    ∀ (resps : List PageResult) (s : LoopState),
      (∀ r ∈ resps, ∃ recs, r = PageResult.ok recs) →
      total ≤ s.fetched + resps.length →
      (runLoop hdrs total resps s).isSome = true := by
  intro resps
  induction resps with
  | nil =>
    intro s _ hlen
    rw [runLoop_nil]
    have : ¬ s.fetched < total := by simp at hlen; omega
    simp [this]
  | cons r rest ih =>
    intro s hok hlen
    by_cases hg : s.fetched < total
    · obtain ⟨recs, rfl⟩ := hok r (List.mem_cons_self r rest)
      cases recs with
      | nil => rw [runLoop_cons_ok_nil hdrs total rest s hg]; rfl
      | cons rec0 recs =>
        rw [runLoop_cons_ok hdrs total rec0 recs rest s hg]
        rw [Option.isSome_map']
        exact ih (writeBatch hdrs s (rec0 :: recs))
          (fun r hr => hok r (List.mem_cons_of_mem _ hr))
          (by simp only [writeBatch, List.length_cons] at *; omega)
    · rw [runLoop_cons_exit hdrs total r rest s hg]; rfl

/-- Main invariant of a finished run against a well-behaved API: the fetched
count never exceeds the target, rows are written one per fetched record, and
every issued request asks for exactly `min(API_LIMIT, total - fetched)`. -/
theorem runLoop_bound_aux (hdrs : List String) (total : ℕ) :
    ∀ (resps : List PageResult) (s fin : LoopState) (reqs : List PageRequest),
      boundedResponses total resps s.fetched = true →
      s.fetched ≤ total →
      runLoop hdrs total resps s = some (fin, reqs) →
      fin.fetched ≤ total ∧
        fin.rows.length + s.fetched = s.rows.length + fin.fetched ∧
        ∀ q ∈ reqs, q.limit = min API_LIMIT (total - q.fetchedBefore) := by
  intro resps
  induction resps with
  | nil =>
    intro s fin reqs _ hle h
    rw [runLoop_nil] at h
    split at h
    · split at h
      · obtain ⟨rfl, rfl⟩ := Prod.mk.injEq .. ▸ Option.some.inj h
        exact ⟨hle, by omega, by simp⟩
      · exact absurd h (by simp)
    · obtain ⟨rfl, rfl⟩ := Prod.mk.injEq .. ▸ Option.some.inj h
      exact ⟨hle, by omega, by simp⟩
  | cons r rest ih =>
    intro s fin reqs hb hle h
    by_cases hg : s.fetched < total
    · cases r with
      | ok recs =>
        rw [boundedResponses, Bool.and_eq_true, decide_eq_true_eq] at hb
        obtain ⟨hlen, hb'⟩ := hb
        cases recs with
        | nil =>
          rw [runLoop_cons_ok_nil hdrs total rest s hg] at h
          obtain ⟨rfl, rfl⟩ := Prod.mk.injEq .. ▸ Option.some.inj h
          refine ⟨hle, by omega, ?_⟩
          intro q hq
          rw [List.mem_singleton] at hq
          subst hq
          rfl
        | cons rec0 recs =>
          rw [runLoop_cons_ok hdrs total rec0 recs rest s hg,
            Option.map_eq_some'] at h
          obtain ⟨p, hp, heq⟩ := h
          obtain ⟨rfl, rfl⟩ := Prod.mk.injEq .. ▸ heq
          have hwf : (writeBatch hdrs s (rec0 :: recs)).fetched =
              s.fetched + (rec0 :: recs).length := rfl
          have hle' : (writeBatch hdrs s (rec0 :: recs)).fetched ≤ total := by
            rw [hwf]
            have := min_le_right API_LIMIT (total - s.fetched)
            omega
          obtain ⟨h1, h2, h3⟩ := ih (writeBatch hdrs s (rec0 :: recs)) p.1 p.2
            (by rw [hwf]; exact hb') hle' (by rw [hp])
          refine ⟨h1, ?_, ?_⟩
          · simp only [writeBatch, List.length_append, List.length_map] at h2 ⊢
            omega
          · intro q hq
            rcases List.mem_cons.mp hq with rfl | hq'
            · rfl
            · exact h3 q hq'
      | fail =>
        rw [boundedResponses] at hb
        rw [runLoop_cons_fail hdrs total rest s hg, Option.map_eq_some'] at h
        obtain ⟨p, hp, heq⟩ := h
        obtain ⟨rfl, rfl⟩ := Prod.mk.injEq .. ▸ heq
        obtain ⟨h1, h2, h3⟩ := ih (skipFailed total s) p.1 p.2 hb hle
          (by rw [hp])
        refine ⟨h1, h2, ?_⟩
        intro q hq
        rcases List.mem_cons.mp hq with rfl | hq'
        · rfl
        · exact h3 q hq'
    · rw [runLoop_cons_exit hdrs total r rest s hg] at h
      obtain ⟨rfl, rfl⟩ := Prod.mk.injEq .. ▸ Option.some.inj h
      exact ⟨hle, by omega, by simp⟩

/-- A probe that lacks records or fields, or whose first record's timestamp
is absent or unparsable, makes `_get_headers_and_latest_time` fail. -/
theorem probe_bad_none (probe : Option ProbeData)
    (hbad : probe = none ∨ ∃ pd, probe = some pd ∧
      (pd.records = [] ∨ pd.fields = [] ∨ probeTimestampBad pd = true)) :
    getHeadersAndLatestTime probe = none := by
  rcases hbad with rfl | ⟨pd, rfl, hcase⟩
  · rfl
  rcases hcase with hrec | hfld | hts
  · simp [getHeadersAndLatestTime, hrec]
  · simp [getHeadersAndLatestTime, hfld]
  · rw [getHeadersAndLatestTime]
    split
    · next hne =>
      cases hmap : pd.fields.mapM fieldId with
      | none => rfl
      | some headers =>
        cases hrecs : pd.records with
        | nil => simp [hrecs]
        | cons rec0 tl =>
          rw [probeTimestampBad, hrecs, Bool.or_eq_true, beq_iff_eq,
            Option.isNone_iff_eq_none] at hts
          rcases hts with hts | hts
          · simp [hrecs, hts]
          · simp [hrecs, hts]
    · rfl

end AQDataFetcher

/-! ## Claim theorems -/

open AQDataFetcher

/-- C1: for every probe timestamp `latest_dt` with hour-of-day `H`, the
computed starting offset equals `(H + 1) * stations_per_day` with
`stations_per_day = 87`, independent of the minute value of `latest_dt`. -/
theorem claim_start_offset (dt : DateTime) :
    calculateStartOffset dt = (dt.hour + 1) * 87 ∧
    ∀ m : ℕ, calculateStartOffset { dt with minute := m } = calculateStartOffset dt :=
  ⟨rfl, fun _ => rfl⟩

/-- C2: a successful page of `k ≥ 1` records advances the offset by exactly
`k`, the number of records actually received: the state update adds
`recs.length` to the offset, the request issued right after a successful
page uses exactly the previous request's offset plus `k`, and consequently
the offset is monotonically non-decreasing across any finished run. -/
theorem claim_offset_advances_by_received (hdrs : List String) (total : ℕ)
    (s : LoopState) (recs : List Record)
    (hk : recs ≠ []) (hlim : recs.length ≤ limitFor total s.fetched) :
    (writeBatch hdrs s recs).offset = s.offset + recs.length ∧
    (∀ rest fin q1 q2 qs,
        runLoop hdrs total (PageResult.ok recs :: rest) s =
          some (fin, q1 :: q2 :: qs) →
        q1.offset = s.offset ∧ q2.offset = s.offset + recs.length) ∧
    (∀ resps (s' fin : LoopState) reqs,
        runLoop hdrs total resps s' = some (fin, reqs) →
        s'.offset ≤ fin.offset) := by
  refine ⟨rfl, ?_, fun resps s' fin reqs h => runLoop_offset_mono hdrs total resps s' fin reqs h⟩
  intro rest fin q1 q2 qs h
  have hg : s.fetched < total := by
    by_contra hg
    rw [runLoop_cons_exit hdrs total _ rest s hg] at h
    obtain ⟨-, hq⟩ := Prod.mk.injEq .. ▸ Option.some.inj h
    exact absurd hq (by simp)
  cases recs with
  | nil => exact absurd rfl hk
  | cons rec0 recs =>
    rw [runLoop_cons_ok hdrs total rec0 recs rest s hg, Option.map_eq_some'] at h
    obtain ⟨p, hp, heq⟩ := h
    obtain ⟨-, hq⟩ := Prod.mk.injEq .. ▸ heq
    obtain ⟨hq1, hq2⟩ := List.cons.injEq .. ▸ hq
    constructor
    · rw [← hq1]; rfl
    · have : q2 = mkRequest total (writeBatch hdrs s (rec0 :: recs)) := by
        refine runLoop_first_request hdrs total rest
          (writeBatch hdrs s (rec0 :: recs)) p.1 q2 qs ?_
        rw [hp, ← hq2]
      rw [this]
      rfl

/-- C2 witness: a concrete one-record page at a concrete state. -/
theorem claim_offset_advances_by_received_witness :
    ([[("x", "1")]] : List Record) ≠ [] ∧
    ([[("x", "1")]] : List Record).length ≤ limitFor 2088 0 ∧
    (writeBatch ["x"] ⟨0, 522, []⟩ [[("x", "1")]]).offset = 522 + 1 :=
  ⟨by decide, by decide,
    (claim_offset_advances_by_received ["x"] 2088 ⟨0, 522, []⟩ [[("x", "1")]]
      (by decide) (by decide)).1⟩

/-- C3: over any finished run against an API whose pages each return at most
the requested number of records, the number of data rows written never
exceeds `days_to_fetch * stations_per_day * 24`, and every issued page
request asks for exactly `min(API_LIMIT, target_total - fetched)` records. -/
theorem claim_total_bounded (hdrs : List String) (days startOffset : ℕ)
    (resps : List PageResult) (fin : LoopState) (reqs : List PageRequest)
    (hd : 0 < days)
    (hb : boundedResponses (NUM_STATIONS * 24 * days) resps 0 = true)
    (hrun : runLoop hdrs (NUM_STATIONS * 24 * days) resps
      ⟨0, startOffset, []⟩ = some (fin, reqs)) :
    fin.rows.length ≤ days * NUM_STATIONS * 24 ∧
    ∀ q ∈ reqs, q.limit = min API_LIMIT (NUM_STATIONS * 24 * days - q.fetchedBefore) := by
  obtain ⟨h1, h2, h3⟩ := runLoop_bound_aux hdrs (NUM_STATIONS * 24 * days)
    resps ⟨0, startOffset, []⟩ fin reqs hb (Nat.zero_le _) hrun
  refine ⟨?_, h3⟩
  simp only [NUM_STATIONS, List.length_nil] at h1 h2 ⊢
  omega

/-- C3 witness: a one-page run that ends at once on an empty page. -/
theorem claim_total_bounded_witness :
    (0 < 1) ∧
    boundedResponses (NUM_STATIONS * 24 * 1) [PageResult.ok []] 0 = true ∧
    runLoop ["x"] (NUM_STATIONS * 24 * 1) [PageResult.ok []] ⟨0, 522, []⟩ =
      some (⟨0, 522, []⟩, [⟨522, 1000, 0⟩]) ∧
    ((⟨0, 522, []⟩ : LoopState).rows.length ≤ 1 * NUM_STATIONS * 24 ∧
      ∀ q ∈ [(⟨522, 1000, 0⟩ : PageRequest)],
        q.limit = min API_LIMIT (NUM_STATIONS * 24 * 1 - q.fetchedBefore)) :=
  ⟨by decide, by decide, by decide,
    claim_total_bounded ["x"] 1 522 [PageResult.ok []] ⟨0, 522, []⟩
      [⟨522, 1000, 0⟩] (by decide) (by decide) (by decide)⟩

/-- C4 counterexample: the claim "the page loop terminates for every
sequence of responses, including repeatedly failing ones" is false.  Against
an API whose requests all fail, no number of consumed responses ever
finishes the loop: the fetched count never increases, so the guard
`fetched < total` never turns false. -/
theorem claim_loop_termination_counterexample :
    ¬ ∃ n : ℕ,
      (runLoop ["sitename"] (NUM_STATIONS * 24 * 1)
        (List.replicate n PageResult.fail) ⟨0, 522, []⟩).isSome = true := by
  rintro ⟨n, hn⟩
  rw [runLoop_replicate_fail_none ["sitename"] (NUM_STATIONS * 24 * 1) n
    ⟨0, 522, []⟩ (by decide)] at hn
  exact absurd hn (by simp)

/-- C4 (amended): a failed page advances the offset by the requested limit,
so the loop makes forward progress in the offset (it never re-requests the
same offset); and the loop terminates on every response sequence without
failures — an all-successful response list of length at least
`total - fetched` always finishes the loop.  An unbounded sequence of
failures, however, keeps the loop running forever (see the counterexample),
since a failure leaves the fetched count unchanged. -/
theorem claim_loop_progress_amended (hdrs : List String) (total : ℕ)
    (resps : List PageResult) (s : LoopState)
    (hok : ∀ r ∈ resps, ∃ recs, r = PageResult.ok recs)
    (hlen : total ≤ s.fetched + resps.length) :
    (runLoop hdrs total resps s).isSome = true ∧
    (s.fetched < total → s.offset < (skipFailed total s).offset) := by
  refine ⟨runLoop_all_ok_some hdrs total resps s hok hlen, fun hg => ?_⟩
  have := limitFor_pos total s.fetched hg
  simp only [skipFailed]
  omega

/-- C4 witness: a single successful page finishing a total of 1. -/
theorem claim_loop_progress_amended_witness :
    (∀ r ∈ [PageResult.ok [[("x", "1")]]], ∃ recs, r = PageResult.ok recs) ∧
    (1 ≤ (⟨0, 0, []⟩ : LoopState).fetched + [PageResult.ok [[("x", "1")]]].length) ∧
    ((runLoop ["x"] 1 [PageResult.ok [[("x", "1")]]] ⟨0, 0, []⟩).isSome = true ∧
      ((⟨0, 0, []⟩ : LoopState).fetched < 1 →
        (⟨0, 0, []⟩ : LoopState).offset < (skipFailed 1 ⟨0, 0, []⟩).offset)) :=
  ⟨fun r hr => ⟨[[("x", "1")]], by simpa using hr⟩, by decide,
    claim_loop_progress_amended ["x"] 1 [PageResult.ok [[("x", "1")]]] ⟨0, 0, []⟩
      (fun r hr => ⟨[[("x", "1")]], by simpa using hr⟩) (by decide)⟩

/-- C5: when the probe step fails (no probe body, missing records or fields,
or an absent/empty/unparsable `datacreationdate`), `fetch_and_save` aborts
before any output: no directory is created, no file is created, no data row
is written, and no page request is issued. -/
theorem claim_probe_failure_aborts (days : ℤ) (probe : Option ProbeData)
    (resps : List PageResult) (hd : 0 < days)
    (hbad : probe = none ∨ ∃ pd, probe = some pd ∧
      (pd.records = [] ∨ pd.fields = [] ∨ probeTimestampBad pd = true)) :
    fetch_and_save days probe resps = some ⟨true, false, none, [], []⟩ := by
  have hn := probe_bad_none probe hbad
  rw [fetch_and_save, if_neg (by omega), hn]

/-- C5 witness: a failed probe request with one day requested. -/
theorem claim_probe_failure_aborts_witness :
    ((0 : ℤ) < 1) ∧
    ((none : Option ProbeData) = none ∨ ∃ pd, (none : Option ProbeData) = some pd ∧
      (pd.records = [] ∨ pd.fields = [] ∨ probeTimestampBad pd = true)) ∧
    fetch_and_save 1 none [] = some ⟨true, false, none, [], []⟩ :=
  ⟨by decide, Or.inl rfl,
    claim_probe_failure_aborts 1 none [] (by decide) (Or.inl rfl)⟩

/-- C6: a successful page whose `records` array is empty stops the fetch
loop without an error: the loop returns normally with the state unchanged,
so every row written before that page is kept. -/
theorem claim_empty_page_stops (hdrs : List String) (total : ℕ)
    (rest : List PageResult) (s : LoopState) (hg : s.fetched < total) :
    runLoop hdrs total (PageResult.ok [] :: rest) s =
      some (s, [mkRequest total s]) ∧
    ∀ fin reqs, runLoop hdrs total (PageResult.ok [] :: rest) s =
      some (fin, reqs) → fin.rows = s.rows := by
  refine ⟨runLoop_cons_ok_nil hdrs total rest s hg, fun fin reqs h => ?_⟩
  rw [runLoop_cons_ok_nil hdrs total rest s hg] at h
  obtain ⟨rfl, -⟩ := Prod.mk.injEq .. ▸ Option.some.inj h
  rfl

/-- C6 witness: an empty page at a state with one row already written. -/
theorem claim_empty_page_stops_witness :
    ((⟨1, 523, [[("x", "1")]]⟩ : LoopState).fetched < 2088) ∧
    runLoop ["x"] 2088 [PageResult.ok []] ⟨1, 523, [[("x", "1")]]⟩ =
      some (⟨1, 523, [[("x", "1")]]⟩, [⟨523, 1000, 1⟩]) :=
  ⟨by decide,
    (claim_empty_page_stops ["x"] 2088 [] ⟨1, 523, [[("x", "1")]]⟩ (by decide)).1⟩

/-- C7: the output filename encodes the inclusive date range
`[latest_day - days_to_fetch, latest_day - 1]`; in particular a 1-day fetch
with latest time 2025-04-01 05:30 yields start offset `(5+1)*87 = 522` and
filename `20250331_20250331.csv`. -/
theorem claim_filename_range (latest : DateTime) (d : ℕ) (hd : 0 < d) :
    startDateOf latest d = subDays latest.date d ∧
    endDateOf latest = subDays latest.date 1 ∧
    calculateStartOffset ⟨2025, 4, 1, 5, 30⟩ = 522 ∧
    outputFilename ⟨2025, 4, 1, 5, 30⟩ 1 = "20250331_20250331.csv" := by
  refine ⟨?_, rfl, rfl, rfl⟩
  show subDays (endDateOf latest) (d - 1) = subDays latest.date d
  rw [subDays, subDays, endDateOf]
  have h1 : prevDate latest.date = prevDate^[1] latest.date := rfl
  rw [h1, ← Function.iterate_add_apply]
  congr 1
  omega

/-- C7 witness: the concrete 1-day fetch of the claim. -/
theorem claim_filename_range_witness :
    (0 < 1) ∧
    (startDateOf ⟨2025, 4, 1, 5, 30⟩ 1 =
        subDays (DateTime.date ⟨2025, 4, 1, 5, 30⟩) 1 ∧
      endDateOf ⟨2025, 4, 1, 5, 30⟩ =
        subDays (DateTime.date ⟨2025, 4, 1, 5, 30⟩) 1 ∧
      calculateStartOffset ⟨2025, 4, 1, 5, 30⟩ = 522 ∧
      outputFilename ⟨2025, 4, 1, 5, 30⟩ 1 = "20250331_20250331.csv") :=
  ⟨Nat.one_pos, claim_filename_range ⟨2025, 4, 1, 5, 30⟩ 1 Nat.one_pos⟩

/-- C10: for every `days_to_fetch ≤ 0`, `fetch_and_save` returns
immediately: no probe request, no page request, no directory, no file, no
rows, and no exception — a no-op apart from the logged error. -/
theorem claim_nonpositive_days_noop (days : ℤ) (probe : Option ProbeData)
    (resps : List PageResult) (hd : days ≤ 0) :
    fetch_and_save days probe resps = some ⟨false, false, none, [], []⟩ := by
  rw [fetch_and_save, if_pos hd]

/-- C10 witness: `days_to_fetch = 0`. -/
theorem claim_nonpositive_days_noop_witness :
    ((0 : ℤ) ≤ 0) ∧
    fetch_and_save 0 (some ⟨[[("x", "1")]], [[("id", "x")]]⟩) [] =
      some ⟨false, false, none, [], []⟩ :=
  ⟨le_refl 0,
    claim_nonpositive_days_noop 0 (some ⟨[[("x", "1")]], [[("id", "x")]]⟩) []
      (le_refl 0)⟩

/-! ## Helper lemmas about the cleaning pass -/

namespace CleanData

/-- Pointwise: a coerced cell is `NaN` in a monitored column exactly when
the original cell is monitored and coerces to NaN. -/
theorem cell_nan_iff (kv : String × String) :
    (columns_to_check.contains kv.1 &&
        decide ((if columns_to_check.contains kv.1 then toNumericCell kv.2
          else CCell.raw kv.2) = CCell.nan)) =
      !(!(columns_to_check.contains kv.1) || (toNumericVal kv.2).isSome) := by
  by_cases hm : kv.1 ∈ columns_to_check
  · cases hp : toNumericVal kv.2 with
    | none => simp [hm, toNumericCell, hp]
    | some v => simp [hm, toNumericCell, hp]
  · simp [hm]

/-- A row holds a monitored `NaN` after coercion exactly when it is not
kept. -/
theorem rowHasNaN_coerce (row : Row) :
    rowHasNaN (coerceChecked row) = !rowKept row := by
  induction row with
  | nil => rfl
  | cons kv rest ih =>
    simp only [rowHasNaN, coerceChecked, rowKept, List.map_cons,
      List.any_cons, List.all_cons] at ih ⊢
    rw [cell_nan_iff kv, ih]
    cases h : (!(columns_to_check.contains kv.1) || (toNumericVal kv.2).isSome) <;>
      simp [h]

/-- The staged pipeline with a fixed dtype context is the filter on kept
rows followed by the per-row coerce-and-serialize map. -/
theorem stage_eq_filter (ctx : List Row) (t : List Row) :
    ((t.map coerceChecked).filter (fun r => !rowHasNaN r)).map (renderBack ctx) =
      (t.filter (fun r => rowKept r)).map
        (fun row => renderBack ctx (coerceChecked row)) := by
  induction t with
  | nil => rfl
  | cons r rest ih =>
    simp only [List.map_cons, List.filter_cons]
    rw [rowHasNaN_coerce r]
    cases h : rowKept r <;> simp [h, ih]

/-- One surviving row, written back, is its cell-wise image under the whole
per-cell pipeline (keyed by the column dtypes of the read table). -/
theorem renderBack_coerce (ctx : List Row) (row : Row) :
    renderBack ctx (coerceChecked row) =
      row.map (fun kv => (kv.1, cleanCellIn ctx kv.1 kv.2)) := by
  rw [renderBack, coerceChecked, List.map_map]
  rfl

/-- The per-cell pipeline keeps all column names in order. -/
theorem cleanCellIn_keys (ctx : List Row) (row : Row) :
    (row.map (fun kv => (kv.1, cleanCellIn ctx kv.1 kv.2))).map Prod.fst =
      row.map Prod.fst := by
  rw [List.map_map]
  rfl

/-- Cells of non-monitored object-dtype columns are textually unchanged. -/
theorem cleanCellIn_obj (ctx : List Row) (c v : String)
    (hm : columns_to_check.contains c = false)
    (hd : outDtypeIn ctx c = Dtype.obj) :
    cleanCellIn ctx c v = v := by
  rw [cleanCellIn, hd, hm]
  rfl

/-- In a numeric-dtype column the written cell depends only on the parsed
value of the input cell, not on how the literal was written. -/
theorem cleanCellIn_value (ctx : List Row) (c v1 v2 : String)
    (hd : outDtypeIn ctx c ≠ Dtype.obj)
    (hv : toNumericVal v1 = toNumericVal v2) :
    cleanCellIn ctx c v1 = cleanCellIn ctx c v2 := by
  by_cases hm : c ∈ columns_to_check
  · simp [cleanCellIn, hm, toNumericCell, hv]
  · cases h : outDtypeIn ctx c with
    | obj => exact absurd h hd
    | int => simp [cleanCellIn, hm, h, renderCCell, hv]
    | float => simp [cleanCellIn, hm, h, renderCCell, hv]

end CleanData

/-- C8 counterexample: the claim "every row whose monitored columns are all
numeric is preserved unchanged (identity on already-clean input)" is false
of the pipeline.  The single-row table with monitored cell `so2 = "007"` is
all-numeric and kept, yet the read/serialize cycle normalizes the cell to
`"7"` (pandas reads the all-integer column as int64 7 and writes it back
plain), so the output differs from the input. -/
theorem claim_cleaning_identity_counterexample :
    CleanData.rowKept [("so2", "007")] = true ∧
    CleanData.process_data [[("so2", "007")]] = [[("so2", "7")]] ∧
    CleanData.process_data [[("so2", "007")]] ≠ [[("so2", "007")]] := by
  refine ⟨by decide, by decide, by decide⟩

/-- C8 (amended): the cleaning pass removes exactly those rows that have, in
at least one monitored column, a value that coerces to NaN (unparsable,
empty, or an explicit nan), keeping the surviving rows in their original
order; every surviving row keeps its column names; cells of non-monitored
object-dtype columns are textually unchanged; and every cell of a
numeric-dtype column — monitored or not — is re-serialized from its parsed
numeric value alone, so its textual form may be normalized (`"007"` becomes
`"7"` in an int64 column and `"7.0"` in a float64 column): the pass is not
the textual identity on already-clean input (see the counterexample). -/
theorem claim_cleaning_exact_removal_amended (t : List CleanData.Row) :
    CleanData.process_data t =
      (t.filter (fun r => CleanData.rowKept r)).map
        (fun row => row.map (fun kv => (kv.1, CleanData.cleanCellIn t kv.1 kv.2))) ∧
    (∀ row : CleanData.Row,
      (row.map (fun kv => (kv.1, CleanData.cleanCellIn t kv.1 kv.2))).map Prod.fst =
        row.map Prod.fst) ∧
    (∀ c v : String, CleanData.columns_to_check.contains c = false →
      CleanData.outDtypeIn t c = CleanData.Dtype.obj →
      CleanData.cleanCellIn t c v = v) ∧
    (∀ c v1 v2 : String, CleanData.outDtypeIn t c ≠ CleanData.Dtype.obj →
      CleanData.toNumericVal v1 = CleanData.toNumericVal v2 →
      CleanData.cleanCellIn t c v1 = CleanData.cleanCellIn t c v2) := by
  refine ⟨?_, fun row => CleanData.cleanCellIn_keys t row,
    fun c v hm hd => CleanData.cleanCellIn_obj t c v hm hd,
    fun c v1 v2 hd hv => CleanData.cleanCellIn_value t c v1 v2 hd hv⟩
  rw [CleanData.process_data, CleanData.stage_eq_filter t t]
  exact List.map_congr_left (fun row _ => CleanData.renderBack_coerce t row)

/-- C8 witness: a concrete two-column table — the monitored `so2` column is
int64 and value-determined (`"7"` and `"07"` serialize alike), the
non-monitored `site` column is object-dtype and untouched. -/
theorem claim_cleaning_exact_removal_amended_witness :
    (CleanData.columns_to_check.contains "site" = false) ∧
    (CleanData.outDtypeIn [[("so2", "7"), ("site", "abc")]] "site" =
      CleanData.Dtype.obj) ∧
    (CleanData.outDtypeIn [[("so2", "7"), ("site", "abc")]] "so2" ≠
      CleanData.Dtype.obj) ∧
    (CleanData.toNumericVal "7" = CleanData.toNumericVal "07") ∧
    (CleanData.cleanCellIn [[("so2", "7"), ("site", "abc")]] "site" "x07" = "x07") ∧
    (CleanData.cleanCellIn [[("so2", "7"), ("site", "abc")]] "so2" "7" =
      CleanData.cleanCellIn [[("so2", "7"), ("site", "abc")]] "so2" "07") :=
  ⟨by decide, by decide, by decide, by decide,
    (claim_cleaning_exact_removal_amended [[("so2", "7"), ("site", "abc")]]).2.2.1
      "site" "x07" (by decide) (by decide),
    (claim_cleaning_exact_removal_amended [[("so2", "7"), ("site", "abc")]]).2.2.2
      "so2" "7" "07" (by decide) (by decide)⟩

/-! ## Helper lemmas about the binning pass -/

namespace BinData

/-- A left fold by `min` is below its initial accumulator. -/
theorem foldl_min_le_init (l : List ℚ) : ∀ a : ℚ, l.foldl min a ≤ a := by
  induction l with
  | nil => intro a; simp
  | cons x xs ih =>
    intro a
    rw [List.foldl_cons]
    exact le_trans (ih (min a x)) (min_le_left a x)

/-- A left fold by `min` is below every list element. -/
theorem foldl_min_le_mem (l : List ℚ) : ∀ (a x : ℚ), x ∈ l → l.foldl min a ≤ x := by
  induction l with
  | nil => intro a x hx; simp at hx
  | cons y ys ih =>
    intro a x hx
    rw [List.foldl_cons]
    rcases List.mem_cons.mp hx with rfl | hx'
    · exact le_trans (foldl_min_le_init ys (min a x)) (min_le_right a x)
    · exact ih (min a y) x hx'

/-- A left fold by `max` is above its initial accumulator. -/
theorem init_le_foldl_max (l : List ℚ) : ∀ a : ℚ, a ≤ l.foldl max a := by
  induction l with
  | nil => intro a; simp
  | cons x xs ih =>
    intro a
    rw [List.foldl_cons]
    exact le_trans (le_max_left a x) (ih (max a x))

/-- A left fold by `max` is above every list element. -/
theorem mem_le_foldl_max (l : List ℚ) : ∀ (a x : ℚ), x ∈ l → x ≤ l.foldl max a := by
  induction l with
  | nil => intro a x hx; simp at hx
  | cons y ys ih =>
    intro a x hx
    rw [List.foldl_cons]
    rcases List.mem_cons.mp hx with rfl | hx'
    · exact le_trans (le_max_right a x) (init_le_foldl_max ys (max a x))
    · exact ih (max a y) x hx'

/-- The column minimum is below every column value. -/
theorem colMin_le (l : List ℚ) (x : ℚ) (hx : x ∈ l) : colMin l ≤ x := by
  cases l with
  | nil => simp at hx
  | cons y ys =>
    rcases List.mem_cons.mp hx with rfl | hx'
    · exact foldl_min_le_init ys x
    · exact foldl_min_le_mem ys y x hx'

/-- The column maximum is above every column value. -/
theorem le_colMax (l : List ℚ) (x : ℚ) (hx : x ∈ l) : x ≤ colMax l := by
  cases l with
  | nil => simp at hx
  | cons y ys =>
    rcases List.mem_cons.mp hx with rfl | hx'
    · exact init_le_foldl_max ys x
    · exact mem_le_foldl_max ys y x hx'

/-- On a nonempty column, the minimum is below the maximum. -/
theorem colMin_le_colMax (l : List ℚ) (x : ℚ) (hx : x ∈ l) :
    colMin l ≤ colMax l :=
  le_trans (colMin_le l x hx) (le_colMax l x hx)

/-- A 4-point linspace over `a ≤ b` is monotonically non-decreasing. -/
theorem linspace_four_chain (a b : ℚ) (h : a ≤ b) :
    List.Chain' (· ≤ ·) (linspace a b 4) := by
  have h4 : linspace a b 4 =
      [a + (b - a) * (0 : ℕ) / ((4 : ℕ) - 1), a + (b - a) * (1 : ℕ) / ((4 : ℕ) - 1),
        a + (b - a) * (2 : ℕ) / ((4 : ℕ) - 1), a + (b - a) * (3 : ℕ) / ((4 : ℕ) - 1)] := rfl
  rw [h4]
  simp only [List.chain'_cons, List.chain'_singleton, and_true]
  push_cast
  refine ⟨?_, ?_, ?_⟩ <;> linarith

end BinData

/-- C9: for every column with more than one distinct value, the binning pass
emits exactly 3 boundary rows whose group labels are pairwise distinct
(低/中/高 for pollutants, 弱/中/強 for windspeed), and the bin boundaries —
`np.linspace` from the column minimum to the column maximum in 4 points —
are monotonically non-decreasing. -/
theorem claim_binning_three_labels (col : String) (labels : List String)
    (values : List ℚ) (a b : ℚ)
    (hl : labels = BinData.pollutantLabels ∨ labels = BinData.windspeedLabels)
    (ha : a ∈ values) (hb : b ∈ values) (hab : a ≠ b) :
    (BinData.binColumn col labels values).2.length = 3 ∧
    List.Pairwise (· ≠ ·)
      ((BinData.binColumn col labels values).2.map BinData.RangeRec.group) ∧
    List.Chain' (· ≤ ·)
      (BinData.linspace (BinData.colMin values) (BinData.colMax values) 4) := by
  refine ⟨rfl, ?_,
    BinData.linspace_four_chain _ _ (BinData.colMin_le_colMax values a ha)⟩
  have hg : (BinData.binColumn col labels values).2.map BinData.RangeRec.group =
      [labels.getD 0 "", labels.getD 1 "", labels.getD 2 ""] := rfl
  rw [hg]
  rcases hl with rfl | rfl <;> decide

/-- C9 witness: the column `[0, 3]` binned with the pollutant labels. -/
theorem claim_binning_three_labels_witness :
    (BinData.pollutantLabels = BinData.pollutantLabels ∨
      BinData.pollutantLabels = BinData.windspeedLabels) ∧
    ((0 : ℚ) ∈ [(0 : ℚ), 3]) ∧ ((3 : ℚ) ∈ [(0 : ℚ), 3]) ∧ ((0 : ℚ) ≠ 3) ∧
    ((BinData.binColumn "so2" BinData.pollutantLabels [0, 3]).2.length = 3 ∧
      List.Pairwise (· ≠ ·)
        ((BinData.binColumn "so2" BinData.pollutantLabels [0, 3]).2.map
          BinData.RangeRec.group) ∧
      List.Chain' (· ≤ ·)
        (BinData.linspace (BinData.colMin [0, 3]) (BinData.colMax [0, 3]) 4)) :=
  ⟨Or.inl rfl, by decide, by decide, by decide,
    claim_binning_three_labels "so2" BinData.pollutantLabels [0, 3] 0 3
      (Or.inl rfl) (by decide) (by decide) (by decide)⟩
